import Mathlib

/-!
Shallow embedding of the connection-establishment subsystem of the
`proxied` crate (src/connect.rs, src/lib.rs): the DNS resolution cache
with round-robin address selection, the eviction pass, the protocol
negotiators' error normalization, the stream facade, and the
protocol-dispatch entry point `connect`.

Rust `HashMap<String, AddrRecord>` is embedded as an association list
whose key type is kept generic (with decidable equality); the source
instantiates it with `String`.  Machine integers that can never
overflow in the modelled paths (`usize` cursors, map sizes, `u16`
ports) are embedded as `Nat`.  Fallible Rust functions returning
`Result<T, E>` become `Except E T`; a Rust path that would `panic!`
(the `unwrap` in `resolve_dns`) is embedded as an `Option`, `none`
standing for the panic.
-/

namespace Proxied

/-- `std::net::SocketAddr`: an IP address plus a port, opaque beyond that. -/
structure SocketAddr where
  ip : Nat
  port : Nat
deriving DecidableEq, Repr

/-- `fast_socks5::AuthenticationMethod` — the only variant the source
constructs is `Password`. -/
inductive AuthenticationMethod
  | Password (username : String) (password : String)
deriving DecidableEq, Repr

/-- `fast_socks5::SocksError`, restricted to the variants the source
matches on, plus `Other` standing for every remaining variant. -/
inductive SocksError
  | AuthMethodUnacceptable (methods : List Nat)
  | UnsupportedSocksVersion (v : Nat)
  | AuthenticationFailed (details : String)
  | AuthenticationRejected (details : String)
  | ExceededMaxDomainLen (n : Nat)
  | Other (msg : String)
deriving DecidableEq, Repr

/-- `async_http_proxy::HttpError`, restricted to the variants the source
matches on, plus `Other` standing for every remaining variant. -/
inductive HttpError
  | IoError (e : Nat)
  | HttpCode200 (code : Nat)
  | Other (msg : String)
deriving DecidableEq, Repr

/-- `ConnectError` (src/connect.rs lines 13-41).  The Rust variant named
`IO` is rendered `IOErr` here (the bare name is reserved in this
development); `std::io::Error` payloads are opaque `Nat` identifiers. -/
inductive ConnectError
  | DnsNameNotResolved
  | IOErr (e : Nat)
  | Http (e : HttpError)
  | Socks (e : SocksError)
  | AuthFailed (details : Option String)
  | AuthMethodUnacceptable
  | FailedAddrParsing
  | WrongProtocol
  | ExceededMaxDomainLen
deriving DecidableEq, Repr

/-- `ProxyKind` (src/lib.rs lines 4-9). -/
inductive ProxyKind
  | Socks5
  | Socks4
  | Http
  | Https
deriving DecidableEq, Repr

/-- `Proxy` (src/lib.rs lines 82-89). -/
structure Proxy where
  kind : ProxyKind
  addr : String
  port : Nat
  creds : Option (String × String)
  refresh_url : Option String
deriving DecidableEq, Repr

/-- `NetworkTarget` (src/connect.rs lines 51-54). -/
inductive NetworkTarget
  | Domain (domain : String) (port : Nat)
  | IPAddr (socket : SocketAddr)
deriving DecidableEq, Repr

/-- `NetworkTarget::host` (src/connect.rs lines 57-62). -/
def NetworkTarget.host : NetworkTarget → String
  | .Domain domain _ => domain
  | .IPAddr socket => toString socket.ip

/-- `NetworkTarget::port` (src/connect.rs lines 64-69). -/
def NetworkTarget.port : NetworkTarget → Nat
  | .Domain _ p => p
  | .IPAddr socket => socket.port

/-- `AddrRecord` (src/connect.rs lines 266-269). -/
structure AddrRecord where
  items : List SocketAddr
  next_item : Nat
deriving DecidableEq, Repr

/-- `CACHE_SIZE` (src/connect.rs line 271). -/
def CACHE_SIZE : Nat := 1000

/-- `CACHE_THRESHOLD = CACHE_SIZE + CACHE_SIZE / 2` (src/connect.rs line 272). -/
def CACHE_THRESHOLD : Nat := CACHE_SIZE + CACHE_SIZE / 2

/-- The `RESOLVED_DNS` map contents: `HashMap<α, AddrRecord>` as an
association list (the source keys by `String`). -/
abbrev Cache (α : Type) := List (α × AddrRecord)

/-- `HashMap::get` / the read of `get_mut`. -/
def cacheGet [DecidableEq α] : Cache α → α → Option AddrRecord
  | [], _ => none
  | (k, v) :: rest, key => if k = key then some v else cacheGet rest key

/-- `HashMap::contains_key`. -/
def cacheContainsKey [DecidableEq α] (c : Cache α) (key : α) : Bool :=
  (cacheGet c key).isSome

/-- Writing a new value through `get_mut` (in-place update of the entry). -/
def cacheSet [DecidableEq α] : Cache α → α → AddrRecord → Cache α
  | [], _, _ => []
  | (k, v) :: rest, key, newv =>
      if k = key then (k, newv) :: rest else (k, v) :: cacheSet rest key newv

/-- `HashMap::insert`: replaces the value when the key is present,
adds a binding otherwise. -/
def cacheInsert [DecidableEq α] (c : Cache α) (key : α) (v : AddrRecord) : Cache α :=
  if cacheContainsKey c key then cacheSet c key v else (key, v) :: c

/-- The `retain` closure of the eviction pass (src/connect.rs lines
301-307): a mutable `size_delta` counts down, dropping each visited
entry while it is still positive and keeping the rest. -/
def evictDrop : Cache α → Nat → Cache α
  | [], _ => []
  | p :: rest, delta =>
      if delta > 0 then evictDrop rest (delta - 1) else p :: evictDrop rest delta

/-- The eviction pass at the top of `resolve_dns` (src/connect.rs lines
299-308): when the map size exceeds `CACHE_THRESHOLD`, remove
`len - CACHE_SIZE` entries (in visiting order, which `HashMap` leaves
arbitrary). -/
def evictPass (c : Cache α) : Cache α :=
  if c.length > CACHE_THRESHOLD then evictDrop c (c.length - CACHE_SIZE) else c

/-- `name_present_dns` (src/connect.rs lines 278-294): round-robin
selection on a cached record.  Returns the selected address (or the
error) together with the mutated record. -/
def name_present_dns (record : AddrRecord) : Except ConnectError SocketAddr × AddrRecord :=
  if record.items.isEmpty then
    (.error .DnsNameNotResolved, record)
  else
    match record.items.get? record.next_item with
    | none => (.error .DnsNameNotResolved, record)
    | some current =>
        let record := { record with next_item := record.next_item + 1 }
        let record :=
          if record.next_item = record.items.length then
            { record with next_item := record.next_item + 1 }
          else record
        (.ok current, record)

/-- The insert-if-absent step after the lock is reacquired on the miss
path (src/connect.rs lines 328-336): a record inserted by a concurrent
caller while the lookup was in flight is never overwritten; only when
the domain is still absent is the fresh list inserted with cursor 0. -/
def insertIfAbsentStep [DecidableEq α] (records : Cache α) (domain : α)
    (resolve_request : List SocketAddr) : Cache α :=
  if cacheContainsKey records domain then records
  else cacheInsert records domain { items := resolve_request, next_item := 0 }

/-- The tail of the miss path of `resolve_dns` (src/connect.rs lines
320-338), starting from the cache state observed when the lock is
reacquired: insert-if-absent, then select via `name_present_dns` on
`get_mut(domain).unwrap()`.  `none` models the panic of `unwrap`. -/
def missPathRejoin [DecidableEq α] (records : Cache α) (domain : α)
    (resolve_request : List SocketAddr) :
    Option (Except ConnectError SocketAddr × Cache α) :=
  let records := insertIfAbsentStep records domain resolve_request
  match cacheGet records domain with
  | none => none
  | some record =>
      let (res, record) := name_present_dns record
      some (res, cacheSet records domain record)

/-- `resolve_dns` (src/connect.rs lines 295-340), sequentially: the
cache state is threaded explicitly in place of the global mutex, and
`tokio::net::lookup_host` is a parameter returning either an I/O error
(an opaque `Nat`, converted by `?` into `ConnectError.IOErr`) or the
resolved address list.  In this sequential model no concurrent writer
runs inside the unlock window, so the miss path rejoins on the same
cache state it released. -/
def resolve_dns [DecidableEq α] (lookup_host : α → Except Nat (List SocketAddr))
    (records : Cache α) (domain : α) :
    Option (Except ConnectError SocketAddr × Cache α) :=
  let records := evictPass records
  match cacheGet records domain with
  | some record =>
      let (res, record) := name_present_dns record
      some (res, cacheSet records domain record)
  | none =>
      match lookup_host domain with
      | .error e => some (.error (.IOErr e), records)
      | .ok resolve_request => missPathRejoin records domain resolve_request

/-- Iterated round-robin selection on one record: the results of `n`
consecutive `name_present_dns` calls, plus the final record. -/
def selectN : AddrRecord → Nat → List (Except ConnectError SocketAddr) × AddrRecord
  | record, 0 => ([], record)
  | record, n + 1 =>
      let (res, record1) := name_present_dns record
      let (rest, record2) := selectN record1 n
      (res :: rest, record2)

/-- A step of `resolve_dns` as a cache transformer (used to drive
sequences of sequential calls; the `none` panic case cannot occur, as
proved below, and is mapped to the unchanged cache). -/
def resolveStep [DecidableEq α] (lookup_host : α → Except Nat (List SocketAddr))
    (records : Cache α) (domain : α) : Cache α :=
  match resolve_dns lookup_host records domain with
  | some (_, records1) => records1
  | none => records

/-- The cache states at the start of each call (the moment the eviction
check of src/connect.rs line 299 runs) along a sequence of sequential
`resolve_dns` calls. -/
def resolveRun [DecidableEq α] (lookup_host : α → Except Nat (List SocketAddr)) :
    Cache α → List α → List (Cache α)
  | _, [] => []
  | records, d :: ds =>
      records :: resolveRun lookup_host (resolveStep lookup_host records d) ds

/-- A lookup environment in which every domain `k` resolves to the one
address `⟨k, 1⟩` and the domains are the naturals (all pairwise
distinct), used to drive the eviction scenario of §8 of the spec. -/
def lookupSingleton : Nat → Except Nat (List SocketAddr) :=
  fun k => .ok [⟨k, 1⟩]

/-- The cache after `n` sequential `resolve_dns` calls on the `n`
distinct fresh domains `0, 1, ..., n-1`, starting from the empty cache,
under `lookupSingleton`. -/
def cacheAfter : Nat → Cache Nat
  | 0 => []
  | n + 1 => resolveStep lookupSingleton (cacheAfter n) n

/-!  The stream facade (src/connect.rs lines 227-264).  `TCPConnection`
wraps a `Box<dyn BiConnection>`; each poll method pins the boxed inner
object and delegates to one of its poll methods.  The inner object is
embedded as a record of state transformers on an abstract state `σ`
(covering the context, buffers and poll results). -/

/-- The poll interface of the boxed tunnel object inside `TCPConnection`
(`AsyncRead + AsyncWrite`). -/
structure TunnelOps (σ : Type) where
  poll_read : σ → σ
  poll_write : σ → σ
  poll_flush : σ → σ
  poll_shutdown : σ → σ

/-- `TCPConnection::poll_read` (src/connect.rs lines 229-236). -/
def TCPConnection.poll_read (inner : TunnelOps σ) (s : σ) : σ :=
  inner.poll_read s

/-- `TCPConnection::poll_write` (src/connect.rs lines 240-247). -/
def TCPConnection.poll_write (inner : TunnelOps σ) (s : σ) : σ :=
  inner.poll_write s

/-- `TCPConnection::poll_flush` (src/connect.rs lines 249-255). -/
def TCPConnection.poll_flush (inner : TunnelOps σ) (s : σ) : σ :=
  inner.poll_flush s

/-- `TCPConnection::poll_shutdown` (src/connect.rs lines 257-263): the
body delegates to the inner object's `poll_flush` (line 262). -/
def TCPConnection.poll_shutdown (inner : TunnelOps σ) (s : σ) : σ :=
  inner.poll_flush s

/-- An inner tunnel over the state `(flushes, shutdowns)` that counts
how often each of its own `poll_flush` and `poll_shutdown` ran. -/
def countingTunnel : TunnelOps (Nat × Nat) where
  poll_read := fun s => s
  poll_write := fun s => s
  poll_flush := fun s => (s.1 + 1, s.2)
  poll_shutdown := fun s => (s.1, s.2 + 1)

/-!  The protocol negotiators (src/connect.rs lines 93-220).  The
wire-level handshake calls of the external libraries (`fast_socks5`
and `async_http_proxy`) are parameters; the negotiators' own control
flow and error normalization are translated from the source. -/

/-- The raw `TcpStream` to the proxy, opaque. -/
structure RawStream where
  id : Nat
deriving DecidableEq, Repr

/-- `fast_socks5::client::Socks5Stream` after a successful handshake,
opaque. -/
structure SocksStream where
  id : Nat
deriving DecidableEq, Repr

/-- The negotiated tunnel: either the SOCKS client wrapper or the raw
upgraded proxy connection (the two `Box::new` sites, src/connect.rs
lines 160 and 217). -/
inductive Tunnel
  | socks (s : SocksStream)
  | raw (s : RawStream)
deriving DecidableEq, Repr

/-- The authentication-method setup of `SocksProtocol::new`
(src/connect.rs lines 117-123): password authentication exactly when
the descriptor carries credentials. -/
def authMethodOf (proxy_creds : Option (String × String)) : Option AuthenticationMethod :=
  match proxy_creds with
  | some (username, password) => some (.Password username password)
  | none => none

/-- `SocksProtocol::new` (src/connect.rs lines 111-167).
`use_stream` stands for `fast_socks5::client::Socks5Stream::use_stream`
(the SOCKS5 client handshake over the given stream with the given
authentication method) and `request` for `Socks5Stream::request` with
the `TCPConnect` command; lines 131-153 and 159-165 normalize their
failures. -/
def socksProtocolNew
    (use_stream : Option AuthenticationMethod → Except SocksError SocksStream)
    (request : SocksStream → NetworkTarget → Except SocksError Unit)
    (proxy_creds : Option (String × String)) (target : NetworkTarget) :
    Except ConnectError Tunnel :=
  match use_stream (authMethodOf proxy_creds) with
  | .error (.AuthMethodUnacceptable _) => .error .AuthMethodUnacceptable
  | .error (.UnsupportedSocksVersion _) => .error .WrongProtocol
  | .error (.AuthenticationFailed details) => .error (.AuthFailed (some details))
  | .error (.AuthenticationRejected details) => .error (.AuthFailed (some details))
  | .error err => .error (.Socks err)
  | .ok stream =>
      match request stream target with
      | .ok _ => .ok (.socks stream)
      | .error (.ExceededMaxDomainLen _) => .error .ExceededMaxDomainLen
      | .error e => .error (.Socks e)

/-- `HttpProtocol::new` (src/connect.rs lines 179-219).  `http_connect`
stands for `async_http_proxy::http_connect_tokio_with_basic_auth` /
`http_connect_tokio` (the CONNECT request to `host:port`, with basic
auth exactly when credentials are supplied). -/
def httpProtocolNew
    (http_connect : String → Nat → Option (String × String) → Except HttpError Unit)
    (proxy_creds : Option (String × String)) (target : NetworkTarget)
    (proxy_stream : RawStream) : Except ConnectError Tunnel :=
  let host := target.host
  let resp := http_connect host target.port proxy_creds
  match resp with
  | .ok _ => .ok (.raw proxy_stream)
  | .error (.IoError e) => .error (.IOErr e)
  | .error (.HttpCode200 407) => .error (.AuthFailed none)
  | .error err => .error (.Http err)

/-!  Lock/IO event trace of the miss path of `resolve_dns`
(src/connect.rs lines 296-339): the statement order of lock
acquisitions, lock releases, cache operations and the DNS lookup. -/

/-- Events of `resolve_dns` relevant to the locking discipline. -/
inductive ResolveEvent
  | lockAcquire
  | lockRelease
  | dnsLookup
  | cacheOp
deriving DecidableEq, Repr

/-- The miss path of `resolve_dns` as an event trace, in statement
order: lock (line 296), eviction pass and miss check (lines 299-310),
`drop(records_lock)` (line 314), `tokio::net::lookup_host` (line 317),
re-lock (line 320), insert-if-absent and selection (lines 328-338),
release at end of scope. -/
def resolveMissTrace : List ResolveEvent :=
  [.lockAcquire, .cacheOp, .lockRelease, .dnsLookup, .lockAcquire, .cacheOp, .lockRelease]

/-- The lock depths at which each `dnsLookup` event of a trace occurs,
scanning left to right from depth `d`. -/
def dnsLookupDepths : List ResolveEvent → Nat → List Nat
  | [], _ => []
  | .lockAcquire :: tr, d => dnsLookupDepths tr (d + 1)
  | .lockRelease :: tr, d => dnsLookupDepths tr (d - 1)
  | .dnsLookup :: tr, d => d :: dnsLookupDepths tr d
  | .cacheOp :: tr, d => dnsLookupDepths tr d

/-!  `connect` (src/connect.rs lines 342-360).  DNS-vs-literal
classification (`Proxy::is_dns_addr`, defined outside src/connect.rs),
literal socket-address parsing (`SocketAddr::from_str`), the TCP dial
and the two negotiators are parameters supplied by the environment;
`connect` itself resolves the proxy address, dials it, and dispatches
on the descriptor's kind. -/

/-- Environment of `connect`: the effects it invokes. -/
structure ConnectEnv where
  is_dns_addr : String → Bool
  resolveDnsAddr : String → Except ConnectError SocketAddr
  parseSocketAddr : String → Nat → Option SocketAddr
  tcpConnect : SocketAddr → Except ConnectError RawStream
  socksNew : Option (String × String) → NetworkTarget → RawStream → Except ConnectError Tunnel
  httpNew : Option (String × String) → NetworkTarget → RawStream → Except ConnectError Tunnel

/-- `connect` (src/connect.rs lines 342-360). -/
def connect (env : ConnectEnv) (proxy : Proxy) (target : NetworkTarget) :
    Except ConnectError Tunnel := do
  let resolved_addr ←
    match env.is_dns_addr proxy.addr with
    | true => env.resolveDnsAddr proxy.addr
    | false =>
        match env.parseSocketAddr proxy.addr proxy.port with
        | some a => Except.ok a
        | none => Except.error .FailedAddrParsing
  let stream ← env.tcpConnect resolved_addr
  match proxy.kind with
  | .Socks5 | .Socks4 => env.socksNew proxy.creds target stream
  | .Http | .Https => env.httpNew proxy.creds target stream

/-!  ## Lemmas about the cache operations -/

theorem cacheGet_mem [DecidableEq α] {c : Cache α} {k : α} {v : AddrRecord}
    (h : cacheGet c k = some v) : (k, v) ∈ c := by
  induction c with
  | nil => simp [cacheGet] at h
  | cons p rest ih =>
    obtain ⟨k1, v1⟩ := p
    by_cases hk : k1 = k
    · subst hk
      simp [cacheGet] at h
      simp [h]
    · simp [cacheGet, hk] at h
      simp [ih h]

theorem cacheGet_eq_none [DecidableEq α] {c : Cache α} {k : α}
    (h : ∀ p ∈ c, p.1 ≠ k) : cacheGet c k = none := by
  induction c with
  | nil => rfl
  | cons p rest ih =>
    obtain ⟨k1, v1⟩ := p
    have hk : k1 ≠ k := h (k1, v1) (by simp)
    simp only [cacheGet, if_neg hk]
    exact ih fun q hq => h q (by simp [hq])

theorem cacheGet_cacheSet_self [DecidableEq α] (c : Cache α) (k : α) (v : AddrRecord)
    (h : (cacheGet c k).isSome) : cacheGet (cacheSet c k v) k = some v := by
  induction c with
  | nil => simp [cacheGet] at h
  | cons p rest ih =>
    obtain ⟨k1, v1⟩ := p
    by_cases hk : k1 = k
    · subst hk
      simp [cacheSet, cacheGet]
    · simp only [cacheGet, if_neg hk] at h
      simp only [cacheSet, if_neg hk, cacheGet, if_neg hk]
      exact ih h

theorem cacheGet_cacheInsert_self [DecidableEq α] (c : Cache α) (k : α) (v : AddrRecord) :
    cacheGet (cacheInsert c k v) k = some v := by
  unfold cacheInsert cacheContainsKey
  by_cases h : (cacheGet c k).isSome
  · simp only [h, if_true]
    exact cacheGet_cacheSet_self c k v h
  · simp only [h, Bool.false_eq_true, if_false]
    simp [cacheGet]

theorem mem_cacheSet [DecidableEq α] {c : Cache α} {k : α} {v : AddrRecord}
    {p : α × AddrRecord} (h : p ∈ cacheSet c k v) : p ∈ c ∨ p = (k, v) := by
  induction c with
  | nil => simp [cacheSet] at h
  | cons q rest ih =>
    obtain ⟨k1, v1⟩ := q
    simp only [cacheSet] at h
    split at h
    · rename_i hk
      subst hk
      rw [List.mem_cons] at h
      rcases h with h | h
      · right; exact h
      · left; exact List.mem_cons_of_mem _ h
    · rw [List.mem_cons] at h
      rcases h with h | h
      · left
        rw [h]
        exact List.mem_cons_self _ _
      · rcases ih h with h1 | h1
        · left; exact List.mem_cons_of_mem _ h1
        · right; exact h1

theorem cacheSet_length [DecidableEq α] (c : Cache α) (k : α) (v : AddrRecord) :
    (cacheSet c k v).length = c.length := by
  induction c with
  | nil => rfl
  | cons p rest ih =>
    obtain ⟨k1, v1⟩ := p
    by_cases hk : k1 = k <;> simp [cacheSet, hk, ih]

theorem cacheInsert_length_le [DecidableEq α] (c : Cache α) (k : α) (v : AddrRecord) :
    (cacheInsert c k v).length ≤ c.length + 1 := by
  unfold cacheInsert
  by_cases h : cacheContainsKey c k
  · simp [h, cacheSet_length]
  · simp [h]

theorem insertIfAbsentStep_length_le [DecidableEq α] (c : Cache α) (k : α)
    (rr : List SocketAddr) : (insertIfAbsentStep c k rr).length ≤ c.length + 1 := by
  unfold insertIfAbsentStep
  by_cases h : cacheContainsKey c k
  · simp [h]
  · simp only [h, Bool.false_eq_true, if_false]
    exact cacheInsert_length_le c k _

/-!  ## Lemmas about the eviction pass -/

theorem evictDrop_eq_drop (c : Cache α) (delta : Nat) : evictDrop c delta = c.drop delta := by
  induction c generalizing delta with
  | nil => simp [evictDrop]
  | cons p rest ih =>
    cases delta with
    | zero => simp [evictDrop, ih]
    | succ d => simp [evictDrop, ih]

theorem evictPass_length_of_over (c : Cache α) (h : c.length > CACHE_THRESHOLD) :
    (evictPass c).length = CACHE_SIZE := by
  unfold evictPass
  rw [if_pos h, evictDrop_eq_drop, List.length_drop]
  simp only [CACHE_SIZE, CACHE_THRESHOLD] at h ⊢
  omega

theorem evictPass_id_of_le (c : Cache α) (h : c.length ≤ CACHE_THRESHOLD) :
    evictPass c = c := by
  unfold evictPass
  rw [if_neg (Nat.not_lt.mpr h)]

theorem evictPass_length_le (c : Cache α) : (evictPass c).length ≤ CACHE_THRESHOLD := by
  by_cases h : c.length > CACHE_THRESHOLD
  · rw [evictPass_length_of_over c h]
    simp [CACHE_SIZE, CACHE_THRESHOLD]
  · rw [evictPass_id_of_le c (Nat.not_lt.mp h)]
    exact Nat.not_lt.mp h

theorem mem_evictPass {c : Cache α} {p : α × AddrRecord} (h : p ∈ evictPass c) : p ∈ c := by
  unfold evictPass at h
  by_cases hc : c.length > CACHE_THRESHOLD
  · rw [if_pos hc, evictDrop_eq_drop] at h
    exact List.drop_subset _ c h
  · rwa [if_neg hc] at h

/-!  ## Lemmas about the resolution paths -/

theorem name_present_dns_empty {r : AddrRecord} (h : r.items = []) :
    name_present_dns r = (.error .DnsNameNotResolved, r) := by
  unfold name_present_dns
  rw [if_pos (by simp [h])]

theorem missPathRejoin_isSome [DecidableEq α] (records : Cache α) (domain : α)
    (rr : List SocketAddr) : (missPathRejoin records domain rr).isSome = true := by
  unfold missPathRejoin insertIfAbsentStep
  by_cases h : cacheContainsKey records domain
  · simp only [h, if_true]
    have h1 : (cacheGet records domain).isSome := h
    rcases hg : cacheGet records domain with _ | r
    · rw [hg] at h1
      simp at h1
    · simp [hg]
  · simp only [h, Bool.false_eq_true, if_false]
    rw [cacheGet_cacheInsert_self]
    simp

theorem missPathRejoin_length [DecidableEq α] {c : Cache α} {d : α} {rr : List SocketAddr}
    {out : Except ConnectError SocketAddr × Cache α}
    (h : missPathRejoin c d rr = some out) : out.2.length ≤ c.length + 1 := by
  unfold missPathRejoin at h
  rcases hg : cacheGet (insertIfAbsentStep c d rr) d with _ | r
  · simp [hg] at h
  · simp only [hg] at h
    cases h
    simp only [cacheSet_length]
    exact insertIfAbsentStep_length_le c d rr

theorem resolveStep_length_le [DecidableEq α] (lh : α → Except Nat (List SocketAddr))
    (c : Cache α) (d : α) : (resolveStep lh c d).length ≤ CACHE_THRESHOLD + 1 := by
  have hc0 : (evictPass c).length ≤ CACHE_THRESHOLD := evictPass_length_le c
  unfold resolveStep resolve_dns
  rcases hg : cacheGet (evictPass c) d with _ | r
  · rcases hl : lh d with e | rr
    · simp only [hg, hl]
      omega
    · simp only [hg, hl]
      rcases hm : missPathRejoin (evictPass c) d rr with _ | out
    -- the panic case cannot occur
      · have := missPathRejoin_isSome (evictPass c) d rr
        rw [hm] at this
        simp at this
      · simp only
        have := missPathRejoin_length hm
        omega
  · simp only [hg, cacheSet_length]
    omega

theorem resolveRun_length_le [DecidableEq α] (lh : α → Except Nat (List SocketAddr))
    (ds : List α) (c : Cache α) (hc : c.length ≤ CACHE_THRESHOLD + 1) :
    ∀ s ∈ resolveRun lh c ds, s.length ≤ CACHE_THRESHOLD + 1 := by
  induction ds generalizing c with
  | nil => simp [resolveRun]
  | cons d ds ih =>
    intro s hs
    simp only [resolveRun, List.mem_cons] at hs
    rcases hs with rfl | hs
    · exact hc
    · exact ih _ (resolveStep_length_le lh c d) s hs

/-!  ## Claims -/

/-- C1: the claim says that on a warm cache entry with address list
[A, B, C] three consecutive round-robin selections return A, B, C and a
fourth returns A again (cycle length = list length).  In the code the
cursor is bumped from 3 straight to 4 after the third call
(src/connect.rs lines 287-290) and is never reduced, so the fourth
consecutive call — and every later one — returns `DnsNameNotResolved`
instead of A: the sequence does not cycle.  This theorem evaluates the
embedded `name_present_dns` at that failing input. -/
theorem C1_round_robin_fourth_call_fails :
    (selectN { items := [⟨10, 1⟩, ⟨20, 1⟩, ⟨30, 1⟩], next_item := 0 } 4).1 =
      [.ok ⟨10, 1⟩, .ok ⟨20, 1⟩, .ok ⟨30, 1⟩, .error .DnsNameNotResolved] ∧
    (selectN { items := [⟨10, 1⟩, ⟨20, 1⟩, ⟨30, 1⟩], next_item := 0 } 5).1.getLast? =
      some (.error .DnsNameNotResolved) := by
  constructor <;> rfl

/-- C2: the claim says the cursor stays in [0, len] and that a cursor
equal to len behaves like a cursor of 0 on the next selection.  In the
code, serving the last element pushes the cursor to len + 1
(src/connect.rs lines 287-290), leaving the claimed range, and a record
whose cursor equals its length yields `DnsNameNotResolved` rather than
wrapping to the first address.  This theorem evaluates the embedded
`name_present_dns` at those failing inputs. -/
theorem C2_cursor_leaves_range :
    (selectN { items := [⟨10, 1⟩, ⟨20, 1⟩, ⟨30, 1⟩], next_item := 0 } 3).2.next_item = 4 ∧
    (selectN { items := [⟨10, 1⟩, ⟨20, 1⟩, ⟨30, 1⟩], next_item := 0 } 3).2.items.length = 3 ∧
    3 < 4 ∧
    (name_present_dns { items := [⟨10, 1⟩], next_item := 1 }).1 =
      .error .DnsNameNotResolved ∧
    (name_present_dns { items := [⟨10, 1⟩], next_item := 0 }).1 = .ok ⟨10, 1⟩ := by
  refine ⟨rfl, rfl, by omega, rfl, rfl⟩

/-- C3: the claim says every read, write, flush and close (shutdown)
operation of the `TCPConnection` facade forwards to the corresponding
operation of the wrapped tunnel.  Read, write and flush do forward
untouched, but `poll_shutdown` delegates to the wrapped tunnel's
`poll_flush` (src/connect.rs line 262), not to its `poll_shutdown`: on
a tunnel that counts its own flushes and shutdowns, closing the facade
records a flush and no shutdown. -/
theorem C3_shutdown_forwards_to_flush :
    (∀ (σ : Type) (inner : TunnelOps σ) (s : σ),
        TCPConnection.poll_read inner s = inner.poll_read s ∧
        TCPConnection.poll_write inner s = inner.poll_write s ∧
        TCPConnection.poll_flush inner s = inner.poll_flush s ∧
        TCPConnection.poll_shutdown inner s = inner.poll_flush s) ∧
    TCPConnection.poll_shutdown countingTunnel (0, 0) = (1, 0) ∧
    countingTunnel.poll_shutdown (0, 0) = (0, 1) ∧
    TCPConnection.poll_shutdown countingTunnel (0, 0) ≠ countingTunnel.poll_shutdown (0, 0) := by
  refine ⟨fun σ inner s => ⟨rfl, rfl, rfl, rfl⟩, rfl, rfl, by decide⟩

/-- C5: on the cache-miss path, after the lock is reacquired following
the DNS lookup, an entry already present for the domain (inserted by a
concurrent caller while the lookup was in flight) is left entirely
unchanged — the whole map, cursor progress included, is untouched by the
insert-if-absent step — and only when the domain is still absent is the
freshly resolved list inserted, with cursor 0 (src/connect.rs lines
328-336). -/
theorem C5_no_overwrite_on_rejoin [DecidableEq α] (records : Cache α) (domain : α)
    (resolve_request : List SocketAddr) :
    (cacheContainsKey records domain = true →
        insertIfAbsentStep records domain resolve_request = records) ∧
    (cacheContainsKey records domain = false →
        insertIfAbsentStep records domain resolve_request =
          cacheInsert records domain { items := resolve_request, next_item := 0 } ∧
        cacheGet (insertIfAbsentStep records domain resolve_request) domain =
          some { items := resolve_request, next_item := 0 }) := by
  constructor
  · intro h
    simp [insertIfAbsentStep, h]
  · intro h
    refine ⟨by simp [insertIfAbsentStep, h], ?_⟩
    simp only [insertIfAbsentStep, h, Bool.false_eq_true, if_false]
    exact cacheGet_cacheInsert_self records domain _

/-- Witness for C5: a concrete warm entry (cursor 5) survives the
rejoin step untouched, and a fresh domain is inserted with cursor 0. -/
theorem C5_no_overwrite_on_rejoin_w :
    insertIfAbsentStep [((0 : Nat), { items := [⟨9, 9⟩], next_item := 5 })] 0 [⟨7, 7⟩] =
      [((0 : Nat), { items := [⟨9, 9⟩], next_item := 5 })] ∧
    cacheGet (insertIfAbsentStep ([] : Cache Nat) 0 [⟨7, 7⟩]) 0 =
      some { items := [⟨7, 7⟩], next_item := 0 } :=
  ⟨(C5_no_overwrite_on_rejoin [((0 : Nat), { items := [⟨9, 9⟩], next_item := 5 })] 0
      [⟨7, 7⟩]).1 (by decide),
   ((C5_no_overwrite_on_rejoin ([] : Cache Nat) 0 [⟨7, 7⟩]).2 (by decide)).2⟩

/-- C8: on the cache-miss path the process-wide cache lock is not held
across the DNS round trip: in the statement-order event trace of
`resolve_dns` (lock at line 296, `drop(records_lock)` at line 314,
lookup at line 317, re-lock at line 320), the single DNS-lookup event
occurs at lock depth 0. -/
theorem C8_lock_released_around_lookup :
    dnsLookupDepths resolveMissTrace 0 = [0] := rfl

/-- C9: after the insert-if-absent step that follows lock reacquisition
on the miss path, the cache always contains an entry for the requested
domain — whatever cache state the reacquired lock reveals (any
concurrent interleaving) and whatever the lookup produced, including
the empty list — so the final `get_mut(domain).unwrap()` (src/connect.rs
line 338, the `none` outcome of `missPathRejoin`) never panics. -/
theorem C9_unwrap_never_panics [DecidableEq α] (records : Cache α) (domain : α)
    (resolve_request : List SocketAddr) :
    (missPathRejoin records domain resolve_request).isSome = true :=
  missPathRejoin_isSome records domain resolve_request

/-!  ## The eviction scenario of C4 -/

theorem name_present_dns_singleton (a : SocketAddr) :
    name_present_dns { items := [a], next_item := 0 } =
      (.ok a, { items := [a], next_item := 2 }) := rfl

theorem resolve_dns_fresh_singleton [DecidableEq α] (lh : α → Except Nat (List SocketAddr))
    (c : Cache α) (d : α) (a : SocketAddr)
    (hlen : c.length ≤ CACHE_THRESHOLD) (hmiss : cacheGet c d = none)
    (hl : lh d = .ok [a]) :
    resolve_dns lh c d =
      some (.ok a, (d, { items := [a], next_item := 2 }) :: c) := by
  unfold resolve_dns
  simp only [evictPass_id_of_le c hlen, hmiss, hl]
  unfold missPathRejoin insertIfAbsentStep cacheContainsKey
  simp only [hmiss, Option.isSome_none, Bool.false_eq_true, if_false]
  unfold cacheInsert cacheContainsKey
  simp only [hmiss, Option.isSome_none, Bool.false_eq_true, if_false]
  simp [cacheGet, cacheSet, name_present_dns_singleton]

theorem cacheAfter_eq_foldl (n : Nat) :
    cacheAfter n = List.foldl (resolveStep lookupSingleton) [] (List.range n) := by
  induction n with
  | zero => rfl
  | succ n ih => simp [cacheAfter, List.range_succ, List.foldl_append, ih]

theorem resolveRun_get [DecidableEq α] (lh : α → Except Nat (List SocketAddr))
    (ds : List α) (c : Cache α) (k : Nat) (h : k < ds.length) :
    (resolveRun lh c ds).get? k =
      some (List.foldl (resolveStep lh) c (ds.take k)) := by
  induction ds generalizing c k with
  | nil => simp at h
  | cons d ds ih =>
    cases k with
    | zero => simp [resolveRun]
    | succ k =>
        simp only [resolveRun, List.get?_cons_succ, List.take_succ_cons, List.foldl_cons]
        exact ih _ _ (by simpa using h)

theorem cacheAfter_spec (n : Nat) (hn : n ≤ CACHE_THRESHOLD + 1) :
    (cacheAfter n).length = n ∧ ∀ p ∈ cacheAfter n, p.1 < n := by
  induction n with
  | zero => exact ⟨rfl, by simp [cacheAfter]⟩
  | succ n ih =>
    obtain ⟨hlen, hkeys⟩ := ih (by omega)
    have hmiss : cacheGet (cacheAfter n) n = none :=
      cacheGet_eq_none fun p hp => Nat.ne_of_lt (hkeys p hp)
    have hstep : cacheAfter (n + 1) =
        (n, { items := [⟨n, 1⟩], next_item := 2 }) :: cacheAfter n := by
      show resolveStep lookupSingleton (cacheAfter n) n = _
      unfold resolveStep
      rw [resolve_dns_fresh_singleton lookupSingleton (cacheAfter n) n ⟨n, 1⟩
          (by omega) hmiss rfl]
    constructor
    · rw [hstep]
      simp [hlen]
    · intro p hp
      rw [hstep] at hp
      rcases List.mem_cons.mp hp with rfl | hp
      · exact Nat.lt_succ_self n
      · exact Nat.lt_succ_of_lt (hkeys p hp)

/-- C4 counterexample: resolving the `CAPACITY × 2 = 2000` distinct
domains `0, ..., 1999` sequentially from an empty cache, the cache
state at the start of call number 1502 — the moment at which the
eviction check runs and fires, since `1501 > CACHE_THRESHOLD` — holds
`HIGH_WATER + 1 = 1501` entries, i.e. strictly more than
`HIGH_WATER = CACHE_THRESHOLD = 1500`, refuting "never more than
HIGH_WATER entries at the moment eviction runs".  The eviction pass
then trims the cache to exactly `CAPACITY = CACHE_SIZE`. -/
theorem C4_high_water_counterexample :
    (resolveRun lookupSingleton [] (List.range (2 * CACHE_SIZE))).get? (CACHE_THRESHOLD + 1) =
      some (cacheAfter (CACHE_THRESHOLD + 1)) ∧
    (cacheAfter (CACHE_THRESHOLD + 1)).length = CACHE_THRESHOLD + 1 ∧
    CACHE_THRESHOLD < (cacheAfter (CACHE_THRESHOLD + 1)).length ∧
    (evictPass (cacheAfter (CACHE_THRESHOLD + 1))).length = CACHE_SIZE := by
  obtain ⟨hlen, _⟩ := cacheAfter_spec (CACHE_THRESHOLD + 1) (Nat.le_refl _)
  refine ⟨?_, hlen, by omega, evictPass_length_of_over _ (by omega)⟩
  rw [resolveRun_get lookupSingleton _ [] (CACHE_THRESHOLD + 1)
      (by simp [CACHE_THRESHOLD, CACHE_SIZE]), List.take_range, cacheAfter_eq_foldl]
  have hmin : (CACHE_THRESHOLD + 1) ⊓ (2 * CACHE_SIZE) = CACHE_THRESHOLD + 1 := by decide
  rw [hmin]

/-- C4 (amended): for every cache state whose size exceeds `HIGH_WATER
= CACHE_THRESHOLD` at the start of a resolve call, the eviction pass
removes entries so that the size is exactly `CAPACITY = CACHE_SIZE`
afterwards; and along any sequence of sequential resolve calls starting
from the empty cache — inserting `CAPACITY × 2` distinct domains in
particular — the cache never holds more than `HIGH_WATER + 1` entries
at the moment the eviction check runs (the check only fires once an
insert has pushed the size one past `HIGH_WATER`). -/
theorem C4_eviction_bounds [DecidableEq α] (lh : α → Except Nat (List SocketAddr))
    (ds : List α) :
    (∀ s ∈ resolveRun lh ([] : Cache α) ds, s.length ≤ CACHE_THRESHOLD + 1) ∧
    (∀ c : Cache α, c.length > CACHE_THRESHOLD → (evictPass c).length = CACHE_SIZE) :=
  ⟨resolveRun_length_le lh ds [] (Nat.zero_le _),
   fun c hc => evictPass_length_of_over c hc⟩

/-- C7: when the DNS lookup for a domain returns zero addresses,
`resolve_dns` returns the `DnsNameNotResolved` error — `some (...)`,
never the `none` that models a panic — the cache afterwards holds an
empty record for that domain, and the stated property of the cache
(every entry for the domain is empty) is preserved, so every subsequent
resolve of the same domain satisfies the same hypotheses and therefore
also returns the error without panicking. -/
theorem C7_empty_dns_result [DecidableEq α] (lh : α → Except Nat (List SocketAddr))
    (c : Cache α) (domain : α)
    (hl : lh domain = .ok ([] : List SocketAddr))
    (hc : ∀ p ∈ c, p.1 = domain → p.2.items = []) :
    ∃ c1, resolve_dns lh c domain = some (.error .DnsNameNotResolved, c1) ∧
      (∃ i, cacheGet c1 domain = some { items := [], next_item := i }) ∧
      (∀ p ∈ c1, p.1 = domain → p.2.items = []) := by
  have hev : ∀ p ∈ evictPass c, p.1 = domain → p.2.items = [] :=
    fun p hp => hc p (mem_evictPass hp)
  rcases hg : cacheGet (evictPass c) domain with _ | r
  · -- miss path: the empty record is inserted with cursor 0
    refine ⟨(domain, { items := [], next_item := 0 }) :: evictPass c, ?_, ⟨0, by
      simp [cacheGet]⟩, ?_⟩
    · unfold resolve_dns
      simp only [hg, hl]
      unfold missPathRejoin insertIfAbsentStep cacheContainsKey
      simp only [hg, Option.isSome_none, Bool.false_eq_true, if_false]
      unfold cacheInsert cacheContainsKey
      simp only [hg, Option.isSome_none, Bool.false_eq_true, if_false]
      simp [cacheGet, cacheSet, name_present_dns]
    · intro p hp
      rcases List.mem_cons.mp hp with rfl | hp
      · intro _
        rfl
      · exact hev p hp
  · -- warm path: the cached record for the domain is empty
    obtain ⟨ritems, rnext⟩ := r
    have hri : ritems = [] := hev (domain, ⟨ritems, rnext⟩) (cacheGet_mem hg) rfl
    subst hri
    refine ⟨cacheSet (evictPass c) domain { items := [], next_item := rnext }, ?_,
      ⟨rnext, cacheGet_cacheSet_self _ _ _ (by simp [hg])⟩, ?_⟩
    · unfold resolve_dns
      simp only [hg]
      rw [name_present_dns_empty rfl]
    · intro p hp
      rcases mem_cacheSet hp with hp1 | hp1
      · exact hev p hp1
      · rw [hp1]
        intro _
        rfl

/-- Witness for C7: a lookup environment that resolves every domain to
zero addresses, starting from the empty cache. -/
theorem C7_empty_dns_result_w :
    ∃ c1, resolve_dns (fun _ : Nat => (.ok [] : Except Nat (List SocketAddr))) [] 0 =
        some (.error .DnsNameNotResolved, c1) ∧
      (∃ i, cacheGet c1 0 = some { items := [], next_item := i }) ∧
      (∀ p ∈ c1, p.1 = 0 → p.2.items = []) :=
  C7_empty_dns_result _ [] 0 rfl (by simp)

/-- A cache of `CACHE_THRESHOLD + 1` distinct entries, exercising the
eviction branch of the C4 witness. -/
def bigCache : Cache Nat :=
  (List.range (CACHE_THRESHOLD + 1)).map fun k => (k, { items := [⟨k, 1⟩], next_item := 2 })

/-- Witness for C4: the bound instantiated at the first state of a
concrete run, and the eviction pass trimming a concrete
1501-entry cache to exactly `CACHE_SIZE` entries. -/
theorem C4_eviction_bounds_w :
    ([] : Cache Nat).length ≤ CACHE_THRESHOLD + 1 ∧
    (evictPass bigCache).length = CACHE_SIZE :=
  ⟨(C4_eviction_bounds lookupSingleton [0]).1 [] (by simp [resolveRun]),
   (C4_eviction_bounds lookupSingleton [0]).2 bigCache
     (by simp only [bigCache, List.length_map, List.length_range]; omega)⟩

/-- C6: credential rejection is normalized to `AuthFailed` with
protocol-dependent detail.  SOCKS5 with credentials: an explicit
authentication failure or rejection from the proxy yields
`AuthFailed (some details)` and an unacceptable method yields
`AuthMethodUnacceptable` (src/connect.rs lines 131-153).  HTTP: a
handshake failure reported as `HttpCode200 407` yields
`AuthFailed none`, an I/O failure yields the IO kind, and every other
HTTP handshake failure passes through as the generic `Http` kind
(src/connect.rs lines 207-215). -/
theorem C6_auth_failure_normalization
    (use_stream : Option AuthenticationMethod → Except SocksError SocksStream)
    (request : SocksStream → NetworkTarget → Except SocksError Unit)
    (http_connect : String → Nat → Option (String × String) → Except HttpError Unit)
    (u p : String) (creds : Option (String × String)) (target : NetworkTarget)
    (stream : RawStream) :
    (∀ details, use_stream (authMethodOf (some (u, p))) =
        .error (.AuthenticationFailed details) →
      socksProtocolNew use_stream request (some (u, p)) target =
        .error (.AuthFailed (some details))) ∧
    (∀ details, use_stream (authMethodOf (some (u, p))) =
        .error (.AuthenticationRejected details) →
      socksProtocolNew use_stream request (some (u, p)) target =
        .error (.AuthFailed (some details))) ∧
    (∀ ms, use_stream (authMethodOf (some (u, p))) = .error (.AuthMethodUnacceptable ms) →
      socksProtocolNew use_stream request (some (u, p)) target =
        .error .AuthMethodUnacceptable) ∧
    (http_connect target.host target.port creds = .error (.HttpCode200 407) →
      httpProtocolNew http_connect creds target stream = .error (.AuthFailed none)) ∧
    (∀ e, http_connect target.host target.port creds = .error (.IoError e) →
      httpProtocolNew http_connect creds target stream = .error (.IOErr e)) ∧
    (∀ err, http_connect target.host target.port creds = .error err →
      (∀ e, err ≠ .IoError e) → err ≠ .HttpCode200 407 →
      httpProtocolNew http_connect creds target stream = .error (.Http err)) := by
  refine ⟨?_, ?_, ?_, ?_, ?_, ?_⟩
  · intro details h
    simp [socksProtocolNew, h]
  · intro details h
    simp [socksProtocolNew, h]
  · intro ms h
    simp [socksProtocolNew, h]
  · intro h
    simp [httpProtocolNew, h]
  · intro e h
    simp [httpProtocolNew, h]
  · intro err h hio h407
    cases err with
    | IoError e => exact absurd rfl (hio e)
    | HttpCode200 code =>
        simp only [httpProtocolNew, h]
    | Other msg =>
        simp [httpProtocolNew, h]

/-- Witness for C6: a SOCKS proxy that rejects the offered credentials,
an HTTP proxy answering CONNECT with status 407, and an HTTP proxy
answering with status 502. -/
theorem C6_auth_failure_normalization_w :
    socksProtocolNew (fun _ => .error (.AuthenticationFailed "denied")) (fun _ _ => .ok ())
        (some ("u", "p")) (.Domain "example.com" 80) = .error (.AuthFailed (some "denied")) ∧
    httpProtocolNew (fun _ _ _ => .error (.HttpCode200 407)) none (.Domain "example.com" 80)
        ⟨1⟩ = .error (.AuthFailed none) ∧
    httpProtocolNew (fun _ _ _ => .error (.HttpCode200 502)) none (.Domain "example.com" 80)
        ⟨1⟩ = .error (.Http (.HttpCode200 502)) :=
  ⟨(C6_auth_failure_normalization (fun _ => .error (.AuthenticationFailed "denied"))
      (fun _ _ => .ok ()) (fun _ _ _ => .error (.HttpCode200 407)) "u" "p" none
      (.Domain "example.com" 80) ⟨1⟩).1 "denied" rfl,
   (C6_auth_failure_normalization (fun _ => .error (.AuthenticationFailed "denied"))
      (fun _ _ => .ok ()) (fun _ _ _ => .error (.HttpCode200 407)) "u" "p" none
      (.Domain "example.com" 80) ⟨1⟩).2.2.2.1 rfl,
   (C6_auth_failure_normalization (fun _ => .error (.AuthenticationFailed "denied"))
      (fun _ _ => .ok ()) (fun _ _ _ => .error (.HttpCode200 502)) "u" "p" none
      (.Domain "example.com" 80) ⟨1⟩).2.2.2.2.2 (.HttpCode200 502) rfl
      (fun e hcc => by injection hcc) (by decide)⟩

/-- C10: `connect` (src/connect.rs lines 350-357) sends `Socks4` and
`Socks5` descriptors through the one SOCKS negotiator arm and `Http`
and `Https` descriptors through the one HTTP-CONNECT negotiator arm;
two descriptors that differ only in the kind within one of these pairs
produce identical behaviour, and when address resolution and the TCP
dial succeed the SOCKS pair reaches the SOCKS negotiator and the HTTP
pair the HTTP negotiator. -/
theorem C10_kind_pairs_dispatch (env : ConnectEnv) (addr : String) (port : Nat)
    (creds : Option (String × String)) (refresh_url : Option String)
    (target : NetworkTarget) :
    connect env (Proxy.mk .Socks4 addr port creds refresh_url) target =
      connect env (Proxy.mk .Socks5 addr port creds refresh_url) target ∧
    connect env (Proxy.mk .Https addr port creds refresh_url) target =
      connect env (Proxy.mk .Http addr port creds refresh_url) target ∧
    (∀ a s, env.is_dns_addr addr = false → env.parseSocketAddr addr port = some a →
      env.tcpConnect a = .ok s →
      connect env (Proxy.mk .Socks4 addr port creds refresh_url) target =
        env.socksNew creds target s ∧
      connect env (Proxy.mk .Http addr port creds refresh_url) target =
        env.httpNew creds target s) := by
  refine ⟨rfl, rfl, ?_⟩
  intro a s h1 h2 h3
  constructor <;> simp [connect, h1, h2, h3, Bind.bind, Except.bind]

/-- A concrete environment for the C10 witness: the proxy address is a
literal that parses, and the TCP dial succeeds. -/
def envW : ConnectEnv where
  is_dns_addr := fun _ => false
  resolveDnsAddr := fun _ => .error .DnsNameNotResolved
  parseSocketAddr := fun _ p => some ⟨1, p⟩
  tcpConnect := fun _ => .ok ⟨5⟩
  socksNew := fun _ _ s => .ok (.socks ⟨s.id⟩)
  httpNew := fun _ _ s => .ok (.raw s)

/-- Witness for C10: in the concrete environment, a `Socks4` descriptor
reaches the SOCKS negotiator and an `Http` descriptor the HTTP one. -/
theorem C10_kind_pairs_dispatch_w :
    connect envW (Proxy.mk .Socks4 "1.2.3.4" 9 none none) (.Domain "example.com" 80) =
      envW.socksNew none (.Domain "example.com" 80) ⟨5⟩ ∧
    connect envW (Proxy.mk .Http "1.2.3.4" 9 none none) (.Domain "example.com" 80) =
      envW.httpNew none (.Domain "example.com" 80) ⟨5⟩ :=
  (C10_kind_pairs_dispatch envW "1.2.3.4" 9 none none (.Domain "example.com" 80)).2.2
    ⟨1, 9⟩ ⟨5⟩ rfl rfl rfl

end Proxied
